import Mathlib

/-!
Verification development for the play-by-play extraction engine in
src/parse_atbats_to_excel.py.  The HTML document tree is embedded as an
inductive `Node`; each parsing function of the source is translated into a
Lean definition of the same name (snake_case kept).  Python `None` becomes
`Option.none`, Python string truthiness is modelled explicitly, machine
integers are `Int`/`Nat` (Python ints are unbounded), and the one place the
source can raise (an `AttributeError` while formatting `pitch_sequence`)
is modelled by an `Option` result for `parse_play_by_play`.
Character classes follow Python's `re` over the ASCII inputs the scraper
handles: word characters are `[A-Za-z0-9_]`, whitespace is the ASCII set.
-/

set_option maxRecDepth 100000

namespace PBP

/-- DOM node: an element with tag name, attribute list and children, or a
bare text node (BeautifulSoup `Tag` / `NavigableString`). -/
inductive Node where
  | elem (tag : String) (attrs : List (String × String)) (children : List Node)
  | text (s : String)

mutual
/-- All text fragments of a subtree in document order (the strings
BeautifulSoup's `get_text` iterates over). -/
def textFragments : Node → List String
  | .text s => [s]
  | .elem _ _ cs => textFragmentsL cs
def textFragmentsL : List Node → List String
  | [] => []
  | c :: cs => textFragments c ++ textFragmentsL cs
end

/-- Python `str.strip()` over the ASCII whitespace the scraper meets. -/
def pyTrim (s : String) : String :=
  String.mk (((s.toList.dropWhile Char.isWhitespace).reverse.dropWhile
    Char.isWhitespace).reverse)

/-- Python `str.lower()` (ASCII). -/
def lowerStr (s : String) : String :=
  String.mk (s.toList.map Char.toLower)

/-- BeautifulSoup `get_text(" ", strip=True)`: strip every fragment, drop the
empty ones, join with a single space. -/
def getTextSpaceStrip (n : Node) : String :=
  String.intercalate " " (((textFragments n).map pyTrim).filter (fun s => s ≠ ""))

/-- BeautifulSoup `.text` property (`get_text()`): raw concatenation. -/
def rawText (n : Node) : String :=
  String.join (textFragments n)

/-- BeautifulSoup `get_text(strip=True)`: strip fragments, drop empties,
join with no separator. -/
def getTextStrip (n : Node) : String :=
  String.join (((textFragments n).map pyTrim).filter (fun s => s ≠ ""))

/-- Source `inner_text` (line 149): text of an optional tag, `""` for `None`. -/
def inner_text (el : Option Node) : String :=
  match el with
  | some e => getTextSpaceStrip e
  | none => ""

/-- Python `str.replace` for a non-empty pattern: replace every
non-overlapping occurrence, scanning left to right.  The fuel is the string
length, which bounds the scan. -/
def replaceAllFuel : Nat → List Char → List Char → List Char → List Char
  | 0, s, _, _ => s
  | fuel + 1, s, pat, repl =>
    match s with
    | [] => []
    | c :: rest =>
      if pat ≠ [] ∧ s.take pat.length = pat then
        repl ++ replaceAllFuel fuel (s.drop pat.length) pat repl
      else c :: replaceAllFuel fuel rest pat repl

def pyReplace (s pat repl : String) : String :=
  String.mk (replaceAllFuel s.toList.length s.toList pat.toList repl.toList)

def Node.tagName : Node → String
  | .elem t _ _ => t
  | .text _ => ""

/-- BeautifulSoup `tag.get(key)`: attribute lookup, `None` when missing. -/
def Node.attr? : Node → String → Option String
  | .elem _ attrs _, k => ((attrs.find? (fun kv => kv.1 == k)).map (fun kv => kv.2))
  | .text _, _ => none

/-- Whitespace split dropping empty pieces (Python `str.split()`); the fuel
is the character count, which bounds the scan. -/
def splitWsFuel : Nat → List Char → List String
  | 0, _ => []
  | fuel + 1, l =>
    match l.dropWhile Char.isWhitespace with
    | [] => []
    | c :: rest =>
      let w := (c :: rest).takeWhile (fun ch => !Char.isWhitespace ch)
      String.mk w :: splitWsFuel fuel ((c :: rest).drop w.length)

/-- The `class` attribute split on whitespace (BeautifulSoup multi-valued
attribute). -/
def Node.classList (n : Node) : List String :=
  match n.attr? "class" with
  | some s => splitWsFuel s.toList.length s.toList
  | none => []

def Node.hasClass (n : Node) (c : String) : Bool :=
  n.classList.contains c

def Node.children : Node → List Node
  | .elem _ _ cs => cs
  | .text _ => []

/-- Python truthiness of an optional string (`None` and `""` are falsy). -/
def truthyO : Option String → Bool
  | none => false
  | some s => s ≠ ""

mutual
/-- Strict descendants of a node in document (pre-)order. -/
def descendants : Node → List Node
  | .text _ => []
  | .elem _ _ cs => descList cs
def descList : List Node → List Node
  | [] => []
  | c :: cs => (c :: descendants c) ++ descList cs
end

/-- A node together with everything below it. -/
def allNodes (n : Node) : List Node :=
  n :: descendants n

/-- BeautifulSoup `select_one` restricted to a per-node predicate:
first matching descendant in document order. -/
def selectOne (pred : Node → Bool) (n : Node) : Option Node :=
  (descendants n).find? pred

/-- BeautifulSoup `find_all` restricted to a per-node predicate. -/
def findAll (pred : Node → Bool) (n : Node) : List Node :=
  (descendants n).filter pred

/-! ### `_safe_int` (lines 152-156): `int(str(x).strip())`, `None` on failure.
Python integer literals allow a sign and single underscores between digits. -/

def digitVal (c : Char) : Nat := c.toNat - 48

def pyDigitsGo : List Char → Nat → Option Nat
  | [], acc => some acc
  | '_' :: rest, acc =>
    match rest with
    | c :: r => if c.isDigit then pyDigitsGo r (acc * 10 + digitVal c) else none
    | [] => none
  | c :: r, acc => if c.isDigit then pyDigitsGo r (acc * 10 + digitVal c) else none

def pyDigits : List Char → Option Nat
  | [] => none
  | c :: r => if c.isDigit then pyDigitsGo r (digitVal c) else none

def pyInt? (s : String) : Option Int :=
  match (pyTrim s).toList with
  | '+' :: rest => (pyDigits rest).map (fun n => (n : Int))
  | '-' :: rest => (pyDigits rest).map (fun n => -(n : Int))
  | rest => (pyDigits rest).map (fun n => (n : Int))

def safe_int (s : String) : Option Int := pyInt? s

/-! ### Regular-expression searches used by the source, implemented directly
with Python `re` semantics (leftmost match, `\b` word boundaries). -/

def isWordChar (c : Char) : Bool := c.isAlphanum || c == '_'

def charMatch (ci : Bool) (a b : Char) : Bool :=
  if ci then a.toLower == b.toLower else a == b

/-- Do the characters of `w` occur in `s` starting at index `i`? -/
def matchChars (s : List Char) (i : Nat) (w : List Char) (ci : Bool) : Bool :=
  match w with
  | [] => true
  | c :: w' =>
    match s.get? i with
    | some a => charMatch ci a c && matchChars s (i + 1) w' ci
    | none => false

/-- Word boundary on the left of position `i` (for a match starting with a
word character). -/
def boundaryBefore (s : List Char) (i : Nat) : Bool :=
  match i with
  | 0 => true
  | j + 1 =>
    match s.get? j with
    | some a => !isWordChar a
    | none => true

/-- Word boundary on the right of position `j` (for a match ending with a
word character). -/
def boundaryAfter (s : List Char) (j : Nat) : Bool :=
  match s.get? j with
  | some a => !isWordChar a
  | none => true

/-- Occurrence of the whole word `w` at position `i` with `\b` on both sides. -/
def matchWordAt (s : List Char) (i : Nat) (w : List Char) (ci : Bool) : Bool :=
  boundaryBefore s i && matchChars s i w ci && boundaryAfter s (i + w.length)

/-- Search for `\b(Top|Bottom)\b` (case-insensitive); the source immediately
applies `.title()` to the captured group, so the result is canonical. -/
def findHalf (str : String) : Option String :=
  let s := str.toList
  (List.range s.length).findSome? (fun i =>
    if matchWordAt s i ("top".toList) true then some "Top"
    else if matchWordAt s i ("bottom".toList) true then some "Bottom"
    else none)

def digitAt (s : List Char) (i : Nat) : Bool :=
  match s.get? i with
  | some c => c.isDigit
  | none => false

def ordSuffixAt (s : List Char) (j : Nat) (ci : Bool) : Bool :=
  matchChars s j ("st".toList) ci || matchChars s j ("nd".toList) ci ||
  matchChars s j ("rd".toList) ci || matchChars s j ("th".toList) ci

def sliceStr (s : List Char) (i len : Nat) : String :=
  String.mk ((s.drop i).take len)

/-- Attempt of `\b\d{1,2}(?:st|nd|rd|th)\b` at position `i`: greedy two
digits first, then one digit, each followed by a suffix and a boundary. -/
def tryOrdinalAt (s : List Char) (i : Nat) (ci : Bool) : Option String :=
  if !boundaryBefore s i then none
  else if digitAt s i && digitAt s (i + 1) && ordSuffixAt s (i + 2) ci &&
      boundaryAfter s (i + 4) then
    some (sliceStr s i 4)
  else if digitAt s i && ordSuffixAt s (i + 1) ci && boundaryAfter s (i + 3) then
    some (sliceStr s i 3)
  else none

/-- Leftmost match of the ordinal pattern; `ci` selects the `re.I` variant
used in `nearest_inning_header_text` (line 181/195) versus the
case-sensitive search of `parse_inning_half_team` (line 211). -/
def findOrdinal (ci : Bool) (str : String) : Option String :=
  let s := str.toList
  (List.range s.length).findSome? (fun i => tryOrdinalAt s i ci)

/-- Combined test of lines 181 and 195: text mentions Top/Bottom and an
ordinal (both case-insensitive). -/
def matchesInningPattern (str : String) : Bool :=
  (findHalf str).isSome && (findOrdinal true str).isSome

/-- Character class `[A-Za-z.\s-]` of the team-suffix pattern (line 214). -/
def teamClassChar (c : Char) : Bool :=
  c.isAlpha || c == '.' || c.isWhitespace || c == '-'

/-- Search for `[–-]\s*([A-Za-z.\s-]{2,})$` and return the captured group
already stripped (the caller applies `.strip()`).  Because `\s` is inside
the class and `{2,}` can backtrack into the `\s*`, the pattern matches at a
dash exactly when everything after it lies in the class and has length at
least two; the stripped group is then the trimmed tail. -/
def findTeamSuffix (str : String) : Option String :=
  let s := str.toList
  (List.range s.length).findSome? (fun i =>
    match s.get? i with
    | some c =>
      if c == '–' || c == '-' then
        let rest := s.drop (i + 1)
        if decide (2 ≤ rest.length) && rest.all teamClassChar then
          some (pyTrim (String.mk rest))
        else none
      else none
    | none => none)

/-- ORDINAL_MAP of lines 42-46: ordinals `1st` … `18th`. -/
def ORDINAL_MAP : List (String × Nat) :=
  [("1st", 1), ("2nd", 2), ("3rd", 3), ("4th", 4), ("5th", 5), ("6th", 6),
   ("7th", 7), ("8th", 8), ("9th", 9), ("10th", 10), ("11th", 11), ("12th", 12),
   ("13th", 13), ("14th", 14), ("15th", 15), ("16th", 16), ("17th", 17), ("18th", 18)]

/-- Python `dict.get` on a string-keyed association list. -/
def mapGet (m : List (String × Nat)) (k : String) : Option Nat :=
  (m.find? (fun kv => kv.1 == k)).map (fun kv => kv.2)

/-- Team resolution of lines 214-218: the stripped dash-suffix group if
truthy, otherwise (when a half was found) the away/home default, where an
empty default collapses to `None` (`... or None`). -/
def resolveTeam (header_text : String) (away_team home_team : Option String)
    (half : Option String) : Option String :=
  let team0 := findTeamSuffix header_text
  if truthyO team0 then team0
  else
    match half with
    | none => team0
    | some h =>
      let cand := if lowerStr h == "top" then away_team else home_team
      match cand with
      | some t => if t = "" then none else some t
      | none => none

/-- Source `parse_inning_half_team` (lines 203-219). -/
def parse_inning_half_team (header_text : String) (away_team home_team : Option String) :
    Option Nat × Option String × Option String :=
  let half := findHalf header_text
  let inn :=
    match findOrdinal false header_text with
    | some o => mapGet ORDINAL_MAP o
    | none => none
  let team := resolveTeam header_text away_team home_team half
  (inn, half, team)

/-! ### Paths into the document tree.
A node of the parsed document is addressed by the list of child indices from
the root; `previous_sibling` decrements the last index and `parent` drops it,
so both walks of the source are bounded. -/

/-- Node at a path, if the path is valid. -/
def nodeAt : Node → List Nat → Option Node
  | n, [] => some n
  | .elem _ _ cs, i :: p =>
    match cs.get? i with
    | some c => nodeAt c p
    | none => none
  | .text _, _ :: _ => none

mutual
/-- Paths of every node of a subtree in document (pre-)order, starting with
the subtree root `[]`. -/
def pathsOf : Node → List (List Nat)
  | .text _ => [[]]
  | .elem _ _ cs => [] :: pathsL cs 0
def pathsL : List Node → Nat → List (List Nat)
  | [], _ => []
  | c :: cs, i => (pathsOf c).map (fun p => i :: p) ++ pathsL cs (i + 1)
end

/-- Children of the node at a path (empty for text nodes / invalid paths). -/
def childrenAt (doc : Node) (q : List Nat) : List Node :=
  match nodeAt doc q with
  | some (.elem _ _ cs) => cs
  | _ => []

/-- BeautifulSoup `find_parent(tag)`: nearest proper ancestor with the tag.
The fuel is the path length, which bounds the ancestor chain. -/
def parentSearch (doc : Node) (tag : String) : Nat → List Nat → Option (List Nat)
  | 0, _ => none
  | fuel + 1, p =>
    match p with
    | [] => none
    | _ :: _ =>
      let q := p.dropLast
      match nodeAt doc q with
      | some n => if n.tagName = tag then some q else parentSearch doc tag fuel q
      | none => none

def find_parent_li (doc : Node) (p : List Nat) : Option (List Nat) :=
  parentSearch doc "li" (p.length + 1) p

/-- Backward previous-sibling walk of lines 177-187: examine siblings at
indices `j-1, j-2, …`; stop at the first non-tag sibling or when the text
heuristics fire. -/
def sibWalk (sibs : List Node) : Nat → Option String
  | 0 => none
  | j + 1 =>
    match sibs.get? j with
    | some (Node.elem t a cs) =>
      let sib := Node.elem t a cs
      let txt := inner_text (some sib)
      if matchesInningPattern txt then some txt
      else if ((descendants sib).any
          (fun d => d.hasClass "InningHeader" || d.hasClass "Accordion__header")) &&
          txt ≠ "" then some txt
      else sibWalk sibs j
    | _ => none

def headerTag (t : String) : Bool :=
  t == "h1" || t == "h2" || t == "h3" || t == "header"

/-- One ancestor step of lines 191-199: direct heading children first, then a
direct child with an inning-header class (whose text is returned even when
empty, exactly as in the source). -/
def ancCheck (doc : Node) (q : List Nat) : Option String :=
  let kids := childrenAt doc q
  let headers := kids.filter (fun h => headerTag h.tagName)
  match headers.find? (fun h => matchesInningPattern (inner_text (some h))) with
  | some h => some (inner_text (some h))
  | none =>
    match kids.find? (fun c => c.hasClass "InningHeader" || c.hasClass "Accordion__header") with
    | some hnode => some (inner_text (some hnode))
    | none => none

/-- Upward ancestor walk; the fuel `q.length + 1` exactly covers the parent
chain up to the document root, so the loop of the source is bounded. -/
def ancWalk (doc : Node) : Nat → List Nat → Option String
  | 0, _ => none
  | fuel + 1, q =>
    match ancCheck doc q with
    | some t => some t
    | none =>
      match q with
      | [] => none
      | _ :: _ => ancWalk doc fuel q.dropLast

/-- Source `nearest_inning_header_text` (lines 176-201), on the node at path
`p`: previous-sibling walk, then ancestor walk, else `""`. -/
def nearest_inning_header_text (doc : Node) (p : List Nat) : String :=
  match p with
  | [] => ""
  | _ :: _ =>
    let pp := p.dropLast
    let idx := p.getLastD 0
    match sibWalk (childrenAt doc pp) idx with
    | some t => t
    | none =>
      match ancWalk doc (pp.length + 1) pp with
      | some t => t
      | none => ""

/-! ### Output records.  Python builds plain dicts with fixed key sets; the
structures below mirror them and the `…Fields` lists record the literal key
sets of those dict literals. -/

/-- Row dict built by `parse_pitch_body` (lines 313-323). -/
structure PitchRow where
  pitch_no : Option Int
  result : Option String
  pitch_type : Option String
  mph : Option Int
  zone : Option String
  on1b : Bool
  on2b : Bool
  on3b : Bool
  field_style : Option String
deriving DecidableEq

/-- Pitch row after `parse_all_pitches` tags it with its play key
(line 351) — also the shape of the rows of the Pitches output
(lines 407-418). -/
structure PitchRecord where
  atbat_key : String
  pitch_no : Option Int
  result : Option String
  pitch_type : Option String
  mph : Option Int
  zone : Option String
  on1b : Bool
  on2b : Bool
  on3b : Bool
  field_style : Option String
deriving DecidableEq

/-- Per-button info dict of `build_atbat_maps` (lines 243-250); the `button`
and `li` tags are kept as paths into the document. -/
structure AtbatInfo where
  desc : String
  away_score : String
  home_score : String
  btn : List Nat
  li : Option (List Nat)
  body_id : Option String
deriving DecidableEq

/-- AtBats output row (lines 393-402). -/
structure AtBatRecord where
  atbat_key : String
  inning : Option Nat
  half : Option String
  team : Option String
  description : String
  away_score : String
  home_score : String
  pitch_sequence : String
deriving DecidableEq

/-- GameSummary dict (lines 420-425): the third output of the engine. -/
structure GameSummary where
  away_team : Option String
  home_team : Option String
  total_atbats_found : Nat
  total_pitch_events_found : Nat
deriving DecidableEq

/-- Literal key list of the AtBats row dict (lines 393-402). -/
def atBatRecordFields : List String :=
  ["atbat_key", "inning", "half", "team", "description", "away_score", "home_score",
   "pitch_sequence"]

/-- Literal key list of the Pitches row dict (lines 407-418). -/
def pitchRecordFields : List String :=
  ["atbat_key", "pitch_no", "result", "pitch_type", "mph", "zone", "on1b", "on2b",
   "on3b", "field_style"]

/-- Literal key list of the summary dict (lines 420-425). -/
def summaryFields : List String :=
  ["away_team", "home_team", "total_atbats_found", "total_pitch_events_found"]

/-! ### Insertion-ordered dictionaries (Python `dict`): an association list
where assigning an existing key updates in place and a new key appends. -/

def dget {α : Type} (m : List (String × α)) (k : String) : Option α :=
  (m.find? (fun kv => kv.1 == k)).map (fun kv => kv.2)

def dinsert {α : Type} : List (String × α) → String → α → List (String × α)
  | [], k, v => [(k, v)]
  | (k0, v0) :: t, k, v =>
    if k0 = k then (k0, v) :: t else (k0, v0) :: dinsert t k v

def dmodify {α : Type} : List (String × α) → String → (α → α) → List (String × α)
  | [], _, _ => []
  | (k0, v0) :: t, k, f =>
    if k0 = k then (k0, f v0) :: t else (k0, v0) :: dmodify t k f

/-- `setdefault(k, []).extend(rs)`: append to an existing entry in place, or
create the entry at the end. -/
def dappend {α : Type} : List (String × List α) → String → List α → List (String × List α)
  | [], k, rs => [(k, rs)]
  | (k0, l0) :: t, k, rs =>
    if k0 = k then (k0, l0 ++ rs) :: t else (k0, l0) :: dappend t k rs

/-! ### `parse_game_header_teams` (lines 159-173). -/

def matchesAt (c : List Char) (i : Nat) (pat : List Char) : Bool :=
  matchChars c i pat false

/-- Scan for the literal `" -"` after the second lazy group; `.` cannot cross
a newline, so the scan aborts at one. -/
def ogScanSecond (c : List Char) : Nat → Nat → Option Nat
  | 0, _ => none
  | fuel + 1, j =>
    if matchesAt c j (" -".toList) then some j
    else
      match c.get? j with
      | some ch => if ch == '\n' then none else ogScanSecond c fuel (j + 1)
      | none => none

/-- Scan for `" vs. "` with backtracking of the regex
`^(.*?) vs\. (.*?) -`: if the tail scan fails, a later `" vs. "` is tried,
as long as no newline is crossed. -/
def ogScanFirst (c : List Char) : Nat → Nat → Option (Nat × Nat)
  | 0, _ => none
  | fuel + 1, i =>
    let next : Option (Nat × Nat) :=
      match c.get? i with
      | some ch => if ch == '\n' then none else ogScanFirst c fuel (i + 1)
      | none => none
    if matchesAt c i (" vs. ".toList) then
      match ogScanSecond c (c.length + 1) (i + 5) with
      | some j => some (i, j)
      | none => next
    else next

def ogTitleMatch (content : String) : Option (String × String) :=
  let c := content.toList
  match ogScanFirst c (c.length + 1) 0 with
  | some (i, j) =>
    some (pyTrim (String.mk (c.take i)), pyTrim (String.mk ((c.drop (i + 5)).take (j - (i + 5)))))
  | none => none

def parse_game_header_teams (doc : Node) : Option String × Option String :=
  let ogt := selectOne (fun n => n.tagName == "meta" && n.attr? "property" == some "og:title") doc
  let viaOg : Option (String × String) :=
    match ogt with
    | some mt =>
      match mt.attr? "content" with
      | some ct => if ct ≠ "" then ogTitleMatch ct else none
      | none => none
    | none => none
  match viaOg with
  | some (a, h) => (some a, some h)
  | none =>
    match selectOne
        (fun n => n.attr? "data-analytics" == some "scoreboard" || n.hasClass "Scoreboard") doc with
    | some sb =>
      let abbrs :=
        (findAll (fun n => n.hasClass "ScoreCell__TeamName" || n.hasClass "ScoreCell__Abbrev") sb).map
          getTextStrip
      if 2 ≤ abbrs.length then (abbrs.get? 0, abbrs.get? 1) else (none, none)
    | none => (none, none)

/-! ### `build_atbat_maps` (lines 222-266). -/

/-- Selector `"button.AtBatAccordion__header, .AtBatAccordion > button"` at a
document path (the root itself is never a select result). -/
def isButtonAt (doc : Node) (p : List Nat) : Bool :=
  match p with
  | [] => false
  | _ :: _ =>
    match nodeAt doc p with
    | some n =>
      n.tagName == "button" &&
      (n.hasClass "AtBatAccordion__header" ||
        (match nodeAt doc p.dropLast with
         | some par => par.hasClass "AtBatAccordion"
         | none => false))
    | none => false

def buttonPaths (doc : Node) : List (List Nat) :=
  (pathsOf doc).filter (fun p => isButtonAt doc p)

/-- Selector `"div.Collapse.AtBatAccordion__body"` at a document path. -/
def isBodyAt (doc : Node) (p : List Nat) : Bool :=
  match p with
  | [] => false
  | _ :: _ =>
    match nodeAt doc p with
    | some n => n.tagName == "div" && n.hasClass "Collapse" && n.hasClass "AtBatAccordion__body"
    | none => false

def bodyPaths (doc : Node) : List (List Nat) :=
  (pathsOf doc).filter (fun p => isBodyAt doc p)

def nodeAtD (doc : Node) (p : List Nat) : Node :=
  (nodeAt doc p).getD (Node.text "")

/-- Info dict of lines 239-250 for the button at path `p`. -/
def buttonInfo (doc : Node) (p : List Nat) : AtbatInfo :=
  let btn := nodeAtD doc p
  let d := inner_text (selectOne (fun n => n.hasClass "PlayHeader__description") btn)
  { desc := if d ≠ "" then d else inner_text (some btn)
  , away_score := inner_text (selectOne (fun n => n.hasClass "PlayHeader__score--away") btn)
  , home_score := inner_text (selectOne (fun n => n.hasClass "PlayHeader__score--home") btn)
  , btn := p
  , li := find_parent_li doc p
  , body_id := btn.attr? "aria-controls" }

/-- Loop body of lines 233-253 (one header button). -/
def atbatButtonStep (doc : Node) (acc : List (String × AtbatInfo) × List (String × String))
    (p : List Nat) : List (String × AtbatInfo) × List (String × String) :=
  let btn := nodeAtD doc p
  match btn.attr? "id" with
  | none => acc
  | some k =>
    if k = "" then acc
    else
      let info := buttonInfo doc p
      let ai := dinsert acc.1 k info
      let b2a :=
        match info.body_id with
        | some bid => if bid ≠ "" then dinsert acc.2 bid k else acc.2
        | none => acc.2
      (ai, b2a)

/-- Loop body of lines 257-264 (one detail body; only `body_to_atbat` and the
stored `body_id` fields are touched). -/
def atbatBodyStep (doc : Node) (acc : List (String × AtbatInfo) × List (String × String))
    (bp : List Nat) : List (String × AtbatInfo) × List (String × String) :=
  let body := nodeAtD doc bp
  let b_id := body.attr? "id"
  let lab := body.attr? "aria-labelledby"
  if truthyO lab && (dget acc.1 (lab.getD "")).isSome then
    let labk := lab.getD ""
    let b2a := if truthyO b_id then dinsert acc.2 (b_id.getD "") labk else acc.2
    let ai :=
      match dget acc.1 labk with
      | some info =>
        if !truthyO info.body_id && truthyO b_id then
          dmodify acc.1 labk (fun i => { i with body_id := b_id })
        else acc.1
      | none => acc.1
    (ai, b2a)
  else acc

def build_atbat_maps (doc : Node) : List (String × AtbatInfo) × List (String × String) :=
  (bodyPaths doc).foldl (atbatBodyStep doc)
    ((buttonPaths doc).foldl (atbatButtonStep doc) ([], []))

/-! ### `parse_pitch_body` (lines 268-326). -/

/-- Suffix after the first `"--"`, as in `c.split("--", 1)[1]` (the guard
below ensures a `"--"` is present, so the fallback `""` is unreachable). -/
def splitAtDashes : List Char → Option (List Char)
  | [] => none
  | '-' :: '-' :: r => some r
  | _ :: r => splitAtDashes r

def zoneFromClasses : List String → Option String
  | [] => none
  | c :: t =>
    if c.toList.take ("HitzoneIcon__location--".length) == ("HitzoneIcon__location--".toList) then
      some
        (match splitAtDashes c.toList with
         | some r => String.mk r
         | none => "")
    else zoneFromClasses t

mutual
/-- Selector `"tbody tr"` inside a detail body: `tr` elements with a `tbody`
ancestor at or below the body (ancestors above the detail container are not
modelled; the scraped pages never nest the container inside a table). -/
def collectTr (inTbody : Bool) : Node → List Node
  | .text _ => []
  | .elem t a cs =>
    (if inTbody && t == "tr" then [Node.elem t a cs] else []) ++
      collectTrL (inTbody || t == "tbody") cs
def collectTrL : Bool → List Node → List Node
  | _, [] => []
  | b, c :: cs => collectTr b c ++ collectTrL b cs
end

def trsOf (body : Node) : List Node :=
  match body with
  | .elem t _ cs => collectTrL (t == "tbody") cs
  | .text _ => []

def tdsOf (tr : Node) : List Node :=
  findAll (fun n => n.tagName == "td") tr

/-- One row dict of lines 276-323 (only reached when at least six cells are
present; the redundant `len(tds) > k` guards are kept).  Passing `None`
into `_safe_int` yields `None`, modelled directly. -/
def extractPitchRow (tds : List Node) : PitchRow :=
  let td0 := (tds.get? 0).getD (Node.text "")
  let icon := selectOne (fun n => n.hasClass "PitchCountIcon") td0
  let pitch_no :=
    match icon with
    | some ic => if rawText ic ≠ "" then safe_int (rawText ic) else none
    | none => none
  let spans := findAll (fun n => n.tagName == "span") td0
  let result :=
    match spans.getLast? with
    | some sp => some (getTextStrip sp)
    | none => none
  let pitch_type := if 1 < tds.length then some (inner_text (tds.get? 1)) else none
  let mph := if 2 < tds.length then safe_int (inner_text (tds.get? 2)) else none
  let zone :=
    if 3 < tds.length then
      match selectOne (fun n => n.hasClass "HitzoneIcon__location") ((tds.get? 3).getD (Node.text "")) with
      | some hz => zoneFromClasses hz.classList
      | none => none
    else none
  let td4 := (tds.get? 4).getD (Node.text "")
  let onB := fun (c2 : String) =>
    4 < tds.length &&
      (selectOne (fun n => n.hasClass "diamond" && n.hasClass c2 && n.hasClass "is--active")
        td4).isSome
  let field_style :=
    if 5 < tds.length then
      match selectOne (fun n => n.hasClass "PlayFieldIcon__location") ((tds.get? 5).getD (Node.text "")) with
      | some fld => fld.attr? "style"
      | none => none
    else none
  { pitch_no := pitch_no, result := result, pitch_type := pitch_type, mph := mph,
    zone := zone, on1b := onB "first-base", on2b := onB "second-base",
    on3b := onB "third-base", field_style := field_style }

/-- Row loop of lines 271-323: rows with fewer than six cells are skipped. -/
def pitch_rows_of_trs : List Node → List PitchRow
  | [] => []
  | tr :: rest =>
    let tds := tdsOf tr
    if tds.length < 6 then pitch_rows_of_trs rest
    else extractPitchRow tds :: pitch_rows_of_trs rest

/-- Sort key of line 325: `9999 if r["pitch_no"] is None else r["pitch_no"]`. -/
def pitchKey (r : PitchRow) : Int :=
  match r.pitch_no with
  | none => 9999
  | some n => n

def pitchLe (a b : PitchRow) : Prop := pitchKey a ≤ pitchKey b

instance : DecidableRel pitchLe :=
  fun a b => inferInstanceAs (Decidable (pitchKey a ≤ pitchKey b))

instance : IsTotal PitchRow pitchLe :=
  ⟨fun a b => le_total (pitchKey a) (pitchKey b)⟩

instance : IsTrans PitchRow pitchLe :=
  ⟨fun _ _ _ hab hbc => le_trans hab hbc⟩

/-- Source `parse_pitch_body`: extract rows, then the stable sort of
line 325 (Python `list.sort` is stable; insertion sort with a total
preorder is the same stable sort). -/
def parse_pitch_body (body : Node) : List PitchRow :=
  List.insertionSort pitchLe (pitch_rows_of_trs (trsOf body))

/-! ### `parse_all_pitches` (lines 328-362). -/

/-- Key resolution of lines 339-347: mapped at-bat, else the body id with a
`"-pitches"` suffix stripped, else the body id itself (`atbat_key or
body_id`). -/
def strEndsWith (s pat : String) : Bool :=
  let l := s.toList
  let p := pat.toList
  decide (p.length ≤ l.length) && (l.drop (l.length - p.length) == p)

def strDropRight (s : String) (n : Nat) : String :=
  String.mk (s.toList.take (s.toList.length - n))

def resolveKey (b2a : List (String × String)) (bid : String) : String :=
  let a0 := dget b2a bid
  let a1 : Option String :=
    if !truthyO a0 && strEndsWith bid "-pitches" then some (strDropRight bid 8) else a0
  match a1 with
  | some s => if s ≠ "" then s else bid
  | none => bid

def toPitchRecord (key : String) (r : PitchRow) : PitchRecord :=
  { atbat_key := key, pitch_no := r.pitch_no, result := r.result,
    pitch_type := r.pitch_type, mph := r.mph, zone := r.zone, on1b := r.on1b,
    on2b := r.on2b, on3b := r.on3b, field_style := r.field_style }

/-- `f'P{n}' / "P?"` tag plus label of lines 358-360. -/
def pitchTagLabel (r : PitchRecord) : String :=
  (match r.pitch_no with
   | some n => "P" ++ toString n
   | none => "P?") ++ ": " ++ r.result.getD ""

def summaryString (rows : List PitchRecord) : String :=
  " • Captured " ++ toString rows.length ++ " pitch rows → " ++
    String.intercalate ", " (rows.map pitchTagLabel)

/-- Loop body of lines 334-352 (one detail body). -/
def pitchBodyStep (doc : Node) (b2a : List (String × String))
    (pm : List (String × List PitchRecord)) (bp : List Nat) :
    List (String × List PitchRecord) :=
  let body := nodeAtD doc bp
  match body.attr? "id" with
  | none => pm
  | some bid =>
    if bid = "" then pm
    else
      let key := resolveKey b2a bid
      let rows := parse_pitch_body body
      if rows.isEmpty then pm
      else dappend pm key (rows.map (toPitchRecord key))

def parse_all_pitches (doc : Node) (b2a : List (String × String)) :
    List (String × List PitchRecord) × List (String × String) :=
  let pm := (bodyPaths doc).foldl (pitchBodyStep doc b2a) []
  (pm, pm.map (fun kv => (kv.1, summaryString kv.2)))

/-! ### `parse_play_by_play` (lines 364-427). -/

/-- The `pitch_sequence` expression of line 401:
`(pitch_summary.get(k) or (pitch_summary.get(body_id) if body_id else "")).replace("• ", "")`.
When neither key has a summary and `body_id` is truthy the whole expression
is `None.replace(...)` — an `AttributeError`, modelled as `none`. -/
def pitchSeqVal (psum : List (String × String)) (k : String) (body_id : Option String) :
    Option String :=
  let a := dget psum k
  let aOrC : Option String :=
    if truthyO a then a
    else if truthyO body_id then dget psum (body_id.getD "")
    else some ""
  aOrC.map (fun s => pyReplace s "• " "")

/-- One AtBats row (lines 379-402) for entry `(k, info)`. -/
def mkAtbatRec (doc : Node) (teams : Option String × Option String)
    (k : String) (info : AtbatInfo) (seqStr : String) : AtBatRecord :=
  let ctx :=
    match info.li with
    | some lp => nearest_inning_header_text doc lp
    | none => ""
  let r := parse_inning_half_team ctx teams.1 teams.2
  { atbat_key := k, inning := r.1, half := r.2.1, team := r.2.2,
    description := info.desc, away_score := info.away_score,
    home_score := info.home_score, pitch_sequence := seqStr }

/-- The at-bats loop of lines 371-402; `none` when the `pitch_sequence`
expression raises. -/
def build_atbats (doc : Node) (teams : Option String × Option String)
    (psum : List (String × String)) : List (String × AtbatInfo) → Option (List AtBatRecord)
  | [] => some []
  | (k, info) :: rest =>
    match pitchSeqVal psum k info.body_id with
    | none => none
    | some s =>
      (build_atbats doc teams psum rest).map (fun tl => mkAtbatRec doc teams k info s :: tl)

/-- The pitch-rows loop of lines 404-418 (`r.get("atbat_key") or k`). -/
def pitchRowsFlatten (pm : List (String × List PitchRecord)) : List PitchRecord :=
  pm.foldl
    (fun acc kv =>
      acc ++ kv.2.map (fun r =>
        { r with atbat_key := if r.atbat_key ≠ "" then r.atbat_key else kv.1 }))
    []

/-- Source `parse_play_by_play` (with `verbose=False`): the engine's whole
run; `none` models the `AttributeError` of line 401. -/
def parse_play_by_play (doc : Node) :
    Option (List AtBatRecord × List PitchRecord × GameSummary) :=
  let teams := parse_game_header_teams doc
  let maps := build_atbat_maps doc
  let pp := parse_all_pitches doc maps.2
  match build_atbats doc teams pp.2 maps.1 with
  | none => none
  | some atbats =>
    let pitch_rows := pitchRowsFlatten pp.1
    some (atbats, pitch_rows,
      { away_team := teams.1, home_team := teams.2,
        total_atbats_found := atbats.length,
        total_pitch_events_found := pitch_rows.length })

/-! ### Concrete documents used to settle the claims. -/

/-- A six-cell pitch row: count icon text `no`, outcome span `lab`,
pitch type `ty`, velocity `v`. -/
def mkRow (no : String) (lab : String) (ty : String) (v : String) : Node :=
  .elem "tr" []
    [.elem "td" []
       [.elem "div" [("class", "PitchCountIcon")] [.text no],
        .elem "span" [] [.text lab]],
     .elem "td" [] [.text ty],
     .elem "td" [] [.text v],
     .elem "td" [] [],
     .elem "td" [] [],
     .elem "td" [] []]

/-- Like `mkRow` but without a `PitchCountIcon` (sequence number is null). -/
def mkRowNoIcon (lab : String) : Node :=
  .elem "tr" []
    [.elem "td" [] [.elem "span" [] [.text lab]],
     .elem "td" [] [.text "Changeup"],
     .elem "td" [] [.text "84"],
     .elem "td" [] [],
     .elem "td" [] [],
     .elem "td" [] []]

/-- C1: one play whose description is a pitching-change sentence. -/
def c1doc : Node :=
  .elem "[document]" []
    [.elem "li" []
       [.elem "button" [("id", "b1"), ("class", "AtBatAccordion__header")]
          [.elem "span" [("class", "PlayHeader__description")]
             [.text "Pitching Change: Smith replaces Jones."]]]]

def c1ab : AtBatRecord :=
  { atbat_key := "b1", inning := none, half := none, team := none,
    description := "Pitching Change: Smith replaces Jones.", away_score := "",
    home_score := "", pitch_sequence := "" }

def c1sm : GameSummary :=
  { away_team := none, home_team := none, total_atbats_found := 1,
    total_pitch_events_found := 0 }

/-- C2: one play with one captured pitch. -/
def c2doc : Node :=
  .elem "[document]" []
    [.elem "button" [("id", "b1"), ("class", "AtBatAccordion__header"), ("aria-controls", "b1-p")]
       [.text "Single."],
     .elem "div" [("class", "Collapse AtBatAccordion__body"), ("id", "b1-p")]
       [.elem "table" [] [.elem "tbody" [] [mkRow "2" "Ball" "Four-seam FB" "95"]]]]

def c2row : PitchRecord :=
  { atbat_key := "b1", pitch_no := some 2, result := some "Ball",
    pitch_type := some "Four-seam FB", mph := some 95, zone := none, on1b := false,
    on2b := false, on3b := false, field_style := none }

/-- C3: a play that references a detail container (`aria-controls`) for which
no pitch rows are captured — line 401 then calls `.replace` on `None`. -/
def c3doc : Node :=
  .elem "[document]" []
    [.elem "button"
       [("id", "b1"), ("class", "AtBatAccordion__header"), ("aria-controls", "b1-pitches")]
       [.text "Walk."]]

/-- C4: a pitch-detail container with one valid row but no `id` attribute. -/
def c4body : Node :=
  .elem "div" [("class", "Collapse AtBatAccordion__body")]
    [.elem "table" [] [.elem "tbody" [] [mkRow "1" "Ball" "Sinker" "93"]]]

def c4doc : Node :=
  .elem "[document]" []
    [.elem "button" [("id", "b1"), ("class", "AtBatAccordion__header")] [.text "Walk."],
     c4body]

/-- C5: a play whose away-score element holds non-numeric text and whose
home-score element is absent. -/
def c5doc : Node :=
  .elem "[document]" []
    [.elem "button" [("id", "b1"), ("class", "AtBatAccordion__header")]
       [.elem "span" [("class", "PlayHeader__score--away")] [.text "abc"]]]

def c5ab : AtBatRecord :=
  { atbat_key := "b1", inning := none, half := none, team := none,
    description := "abc", away_score := "abc", home_score := "", pitch_sequence := "" }

def c5sm : GameSummary :=
  { away_team := none, home_team := none, total_atbats_found := 1,
    total_pitch_events_found := 0 }

/-- C6: a detail body whose rows carry the sequence numbers 10000 and null —
the null sort key 9999 is smaller than the real sequence number. -/
def c6body : Node :=
  .elem "div" [("class", "Collapse AtBatAccordion__body"), ("id", "z-pitches")]
    [.elem "table" []
       [.elem "tbody" [] [mkRow "10000" "Ball" "Cutter" "90", mkRowNoIcon "In play"]]]

/-- C6 witness: ordinary sequence numbers below the sentinel plus a null. -/
def c6wbody : Node :=
  .elem "div" [("class", "Collapse AtBatAccordion__body"), ("id", "w-pitches")]
    [.elem "table" []
       [.elem "tbody" []
          [mkRow "2" "Foul" "Slider" "86", mkRowNoIcon "In play", mkRow "1" "Ball" "Curve" "78"]]]

/-- C7: row lists around a row with fewer than six cells. -/
def c7trs1 : List Node := [mkRow "1" "Ball" "Sinker" "92"]

def c7bad : Node := .elem "tr" [] [.elem "td" [] [.text "x"]]

def c7trs2 : List Node := [mkRow "2" "Foul" "Slider" "85"]

/-- C8: a document with no recognizable inning headings at all. -/
def c8doc : Node :=
  .elem "[document]" []
    [.elem "ul" []
       [.elem "li" []
          [.elem "button" [("id", "x1"), ("class", "AtBatAccordion__header")] [.text "Fly out."]]]]

/-- C9: an orphan detail container (id resolves to no at-bat) with one valid
pitch row, and no play containers at all. -/
def c9doc : Node :=
  .elem "[document]" []
    [.elem "div" [("class", "Collapse AtBatAccordion__body"), ("id", "orphan")]
       [.elem "table" [] [.elem "tbody" [] [mkRow "1" "Foul" "Curve" "79"]]]]

/-- C9 witness: a well-linked play and pitch. -/
def c9wdoc : Node :=
  .elem "[document]" []
    [.elem "button" [("id", "w1"), ("class", "AtBatAccordion__header"), ("aria-controls", "w1-p")]
       [.text "Strikeout."],
     .elem "div" [("class", "Collapse AtBatAccordion__body"), ("id", "w1-p")]
       [.elem "table" [] [.elem "tbody" [] [mkRow "1" "Strike" "Slider" "88"]]]]

def c9pr : PitchRecord :=
  { atbat_key := "w1", pitch_no := some 1, result := some "Strike",
    pitch_type := some "Slider", mph := some 88, zone := none, on1b := false,
    on2b := false, on3b := false, field_style := none }

def c9ab : AtBatRecord :=
  { atbat_key := "w1", inning := none, half := none, team := none,
    description := "Strikeout.", away_score := "", home_score := "",
    pitch_sequence := " Captured 1 pitch rows → P1: Strike" }

def c9sm : GameSummary :=
  { away_team := none, home_team := none, total_atbats_found := 1,
    total_pitch_events_found := 1 }

/-- A node that triggers none of the context-resolver heuristics: its text
does not match the inning pattern and it carries neither header class. -/
def cleanNodeB (n : Node) : Bool :=
  !matchesInningPattern (inner_text (some n)) && !n.hasClass "InningHeader" &&
    !n.hasClass "Accordion__header"

/-- A document with no recognizable inning headings anywhere. -/
def cleanFor (doc : Node) : Prop :=
  ∀ n ∈ allNodes doc, cleanNodeB n = true

instance (doc : Node) : Decidable (cleanFor doc) := by
  unfold cleanFor
  infer_instance

/-- Provenance of an `atbat_info` entry: it stems from a header button with
that (truthy) id, and its description and score fields are exactly the ones
`build_atbat_maps` reads off that button. -/
def infoProv (doc : Node) (kv : String × AtbatInfo) : Prop :=
  ∃ p, p ∈ buttonPaths doc ∧ (nodeAtD doc p).attr? "id" = some kv.1 ∧ kv.1 ≠ "" ∧
    kv.2.desc = (buttonInfo doc p).desc ∧
    kv.2.away_score = (buttonInfo doc p).away_score ∧
    kv.2.home_score = (buttonInfo doc p).home_score

/-- Provenance of a `pitch_map` entry: its key is the resolved key of a
contributing detail container, and every row in it is tagged with that key. -/
def pmInv (doc : Node) (b2a : List (String × String))
    (m : List (String × List PitchRecord)) : Prop :=
  ∀ kv ∈ m,
    (∃ bp, bp ∈ bodyPaths doc ∧ ∃ bid, (nodeAtD doc bp).attr? "id" = some bid ∧
      bid ≠ "" ∧ kv.1 = resolveKey b2a bid) ∧
    ∀ r ∈ kv.2, r.atbat_key = kv.1

/-! ## Lemmas -/

theorem mem_descList {x : Node} :
    ∀ {l : List Node}, x ∈ descList l ↔ ∃ c ∈ l, x = c ∨ x ∈ descendants c := by
  intro l
  induction l with
  | nil => simp [descList]
  | cons c cs ih =>
    simp only [descList, List.mem_append, List.mem_cons, ih]
    aesop

mutual
theorem desc_trans : ∀ (n x y : Node), x ∈ descendants n → y ∈ descendants x →
    y ∈ descendants n
  | .text _, _, _, hx, _ => absurd hx (by simp [descendants])
  | .elem t a cs, x, y, hx, hy => by
    simp only [descendants] at hx ⊢
    exact descL_trans cs x y hx hy
theorem descL_trans : ∀ (l : List Node) (x y : Node), x ∈ descList l →
    y ∈ descendants x → y ∈ descList l
  | [], _, _, hx, _ => absurd hx (by simp [descList])
  | c :: cs, x, y, hx, hy => by
    simp only [descList, List.mem_append, List.mem_cons] at hx ⊢
    rcases hx with (rfl | hd) | h2
    · exact Or.inl (Or.inr hy)
    · exact Or.inl (Or.inr (desc_trans c x y hd hy))
    · exact Or.inr (descL_trans cs x y h2 hy)
end

theorem nodeAt_allNodes : ∀ (p : List Nat) (doc n : Node), nodeAt doc p = some n →
    n ∈ allNodes doc := by
  intro p
  induction p with
  | nil =>
    intro doc n h
    simp only [nodeAt, Option.some.injEq] at h
    simp [allNodes, h]
  | cons i q ih =>
    intro doc n h
    cases doc with
    | text s => simp [nodeAt] at h
    | elem t a cs =>
      simp only [nodeAt] at h
      cases hc : cs.get? i with
      | none => rw [hc] at h; simp at h
      | some c =>
        rw [hc] at h
        have hcm : c ∈ cs := List.get?_mem hc
        have hn := ih c n h
        rcases List.mem_cons.mp hn with rfl | hd
        · exact List.mem_cons.mpr (Or.inr (by
            show n ∈ descendants (Node.elem t a cs)
            simp only [descendants]
            exact mem_descList.mpr ⟨n, hcm, Or.inl rfl⟩))
        · exact List.mem_cons.mpr (Or.inr (by
            show n ∈ descendants (Node.elem t a cs)
            simp only [descendants]
            exact mem_descList.mpr ⟨c, hcm, Or.inr hd⟩))

theorem children_sub_descendants {n c : Node} (h : c ∈ n.children) :
    c ∈ descendants n := by
  cases n with
  | text s => simp [Node.children] at h
  | elem t a cs =>
    simp only [Node.children] at h
    simp only [descendants]
    exact mem_descList.mpr ⟨c, h, Or.inl rfl⟩

theorem mem_allNodes_trans {doc n d : Node} (hn : n ∈ allNodes doc)
    (hd : d ∈ descendants n) : d ∈ allNodes doc := by
  rcases List.mem_cons.mp hn with rfl | hnd
  · exact List.mem_cons.mpr (Or.inr hd)
  · exact List.mem_cons.mpr (Or.inr (desc_trans doc n d hnd hd))

theorem childrenAt_sub {doc : Node} (q : List Nat) :
    ∀ c ∈ childrenAt doc q, c ∈ allNodes doc := by
  intro c hc
  unfold childrenAt at hc
  cases hq : nodeAt doc q with
  | none => rw [hq] at hc; simp at hc
  | some n =>
    rw [hq] at hc
    cases n with
    | text s => simp at hc
    | elem t a cs =>
      have hn := nodeAt_allNodes q doc _ hq
      exact mem_allNodes_trans hn (children_sub_descendants (by simpa [Node.children] using hc))

theorem cleanNodeB_parts {n : Node} (h : cleanNodeB n = true) :
    matchesInningPattern (inner_text (some n)) = false ∧
    n.hasClass "InningHeader" = false ∧ n.hasClass "Accordion__header" = false := by
  simp only [cleanNodeB, Bool.and_eq_true, Bool.not_eq_true'] at h
  exact ⟨h.1.1, h.1.2, h.2⟩

theorem sibWalk_clean {doc : Node} (hc : cleanFor doc) (sibs : List Node)
    (hs : ∀ s ∈ sibs, s ∈ allNodes doc) : ∀ j, sibWalk sibs j = none := by
  intro j
  induction j with
  | zero => simp [sibWalk]
  | succ j ih =>
    rw [sibWalk]
    cases hg : sibs.get? j with
    | none => rfl
    | some s =>
      cases s with
      | text str => rfl
      | elem t a cs =>
        have hmem : Node.elem t a cs ∈ allNodes doc := hs _ (List.get?_mem hg)
        have hcl := cleanNodeB_parts (hc _ hmem)
        have hany : ((descendants (Node.elem t a cs)).any
            (fun d => d.hasClass "InningHeader" || d.hasClass "Accordion__header")) = false := by
          rw [List.any_eq_false]
          intro d hd
          have hdm : d ∈ allNodes doc := mem_allNodes_trans hmem hd
          have hdc := cleanNodeB_parts (hc _ hdm)
          simp [hdc.2.1, hdc.2.2]
        simp only [hcl.1, hany, Bool.false_eq_true, if_false, Bool.false_and]
        exact ih

theorem ancCheck_clean {doc : Node} (hc : cleanFor doc) (q : List Nat) :
    ancCheck doc q = none := by
  unfold ancCheck
  have hsub : ∀ c ∈ childrenAt doc q, c ∈ allNodes doc := childrenAt_sub q
  have h1 : ((childrenAt doc q).filter (fun h => headerTag h.tagName)).find?
      (fun h => matchesInningPattern (inner_text (some h))) = none := by
    rw [List.find?_eq_none]
    intro x hx
    have hxm : x ∈ childrenAt doc q := (List.mem_filter.mp hx).1
    have := cleanNodeB_parts (hc _ (hsub _ hxm))
    simp [this.1]
  have h2 : (childrenAt doc q).find?
      (fun c => c.hasClass "InningHeader" || c.hasClass "Accordion__header") = none := by
    rw [List.find?_eq_none]
    intro x hx
    have := cleanNodeB_parts (hc _ (hsub _ hx))
    simp [this.2.1, this.2.2]
  simp only [h1, h2]

theorem ancWalk_clean {doc : Node} (hc : cleanFor doc) :
    ∀ (fuel : Nat) (q : List Nat), ancWalk doc fuel q = none := by
  intro fuel
  induction fuel with
  | zero => intro q; rfl
  | succ fuel ih =>
    intro q
    have hunf : ancWalk doc (fuel + 1) q =
        (match ancCheck doc q with
         | some t => some t
         | none =>
           match q with
           | [] => none
           | _ :: _ => ancWalk doc fuel q.dropLast) := rfl
    rw [hunf, ancCheck_clean hc]
    cases q with
    | nil => rfl
    | cons i q' => exact ih _

theorem foldl_inv {σ α : Type} (P : σ → Prop) (step : σ → α → σ) :
    ∀ (l : List α) (s0 : σ), P s0 → (∀ s x, x ∈ l → P s → P (step s x)) →
    P (l.foldl step s0) := by
  intro l
  induction l with
  | nil => intro s0 h _; simpa using h
  | cons x xs ih =>
    intro s0 h hstep
    simp only [List.foldl_cons]
    exact ih (step s0 x) (hstep s0 x (by simp) h)
      (fun s y hy hP => hstep s y (by simp [hy]) hP)

theorem mem_dinsert {α : Type} :
    ∀ (m : List (String × α)) (k : String) (v : α) (kv : String × α),
    kv ∈ dinsert m k v → kv ∈ m ∨ kv = (k, v) := by
  intro m k v
  induction m with
  | nil => intro kv h; simp [dinsert] at h; simp [h]
  | cons hd t ih =>
    intro kv h
    obtain ⟨k0, v0⟩ := hd
    simp only [dinsert] at h
    by_cases hk : k0 = k
    · rw [if_pos hk] at h
      rcases List.mem_cons.mp h with rfl | hm
      · subst hk; exact Or.inr rfl
      · exact Or.inl (List.mem_cons.mpr (Or.inr hm))
    · rw [if_neg hk] at h
      rcases List.mem_cons.mp h with rfl | hm
      · exact Or.inl (List.mem_cons.mpr (Or.inl rfl))
      · rcases ih kv hm with h1 | h1
        · exact Or.inl (List.mem_cons.mpr (Or.inr h1))
        · exact Or.inr h1

theorem mem_dmodify {α : Type} :
    ∀ (m : List (String × α)) (k : String) (f : α → α) (kv : String × α),
    kv ∈ dmodify m k f → kv ∈ m ∨ ∃ v0, (kv.1, v0) ∈ m ∧ kv.2 = f v0 := by
  intro m k f
  induction m with
  | nil => intro kv h; simp [dmodify] at h
  | cons hd t ih =>
    intro kv h
    obtain ⟨k0, v0⟩ := hd
    simp only [dmodify] at h
    by_cases hk : k0 = k
    · rw [if_pos hk] at h
      rcases List.mem_cons.mp h with rfl | hm
      · exact Or.inr ⟨v0, List.mem_cons.mpr (Or.inl rfl), rfl⟩
      · exact Or.inl (List.mem_cons.mpr (Or.inr hm))
    · rw [if_neg hk] at h
      rcases List.mem_cons.mp h with rfl | hm
      · exact Or.inl (List.mem_cons.mpr (Or.inl rfl))
      · rcases ih kv hm with h1 | ⟨w, hw, hfw⟩
        · exact Or.inl (List.mem_cons.mpr (Or.inr h1))
        · exact Or.inr ⟨w, List.mem_cons.mpr (Or.inr hw), hfw⟩

theorem dappend_pres {α : Type} (Q : String → Prop) (R : String → α → Prop) :
    ∀ (m : List (String × List α)) (k : String) (rs : List α),
    (∀ kv ∈ m, Q kv.1 ∧ ∀ r ∈ kv.2, R kv.1 r) → Q k → (∀ r ∈ rs, R k r) →
    ∀ kv ∈ dappend m k rs, Q kv.1 ∧ ∀ r ∈ kv.2, R kv.1 r := by
  intro m k rs
  induction m with
  | nil =>
    intro _ hQ hR kv h
    simp [dappend] at h
    subst h
    exact ⟨hQ, hR⟩
  | cons hd t ih =>
    intro hm hQ hR kv h
    obtain ⟨k0, l0⟩ := hd
    simp only [dappend] at h
    by_cases hk : k0 = k
    · rw [if_pos hk] at h
      rcases List.mem_cons.mp h with rfl | hmem
      · have h0 := hm (k0, l0) (List.mem_cons.mpr (Or.inl rfl))
        refine ⟨h0.1, ?_⟩
        intro r hr
        rcases List.mem_append.mp hr with h1 | h1
        · exact h0.2 r h1
        · subst hk; exact hR r h1
      · exact hm _ (List.mem_cons.mpr (Or.inr hmem))
    · rw [if_neg hk] at h
      rcases List.mem_cons.mp h with rfl | hmem
      · exact hm _ (List.mem_cons.mpr (Or.inl rfl))
      · exact ih (fun kv2 hkv2 => hm kv2 (List.mem_cons.mpr (Or.inr hkv2))) hQ hR kv hmem

theorem mem_foldl_append {α β : Type} (f : α → List β) :
    ∀ (l : List α) (acc : List β) (x : β),
    x ∈ l.foldl (fun a kv => a ++ f kv) acc ↔ x ∈ acc ∨ ∃ kv ∈ l, x ∈ f kv := by
  intro l
  induction l with
  | nil => intro acc x; simp
  | cons hd t ih =>
    intro acc x
    simp only [List.foldl_cons, ih, List.mem_append, List.mem_cons]
    aesop

theorem atbatButtonStep_prov (doc : Node)
    (acc : List (String × AtbatInfo) × List (String × String)) (p : List Nat)
    (hp : p ∈ buttonPaths doc) (h : ∀ kv ∈ acc.1, infoProv doc kv) :
    ∀ kv ∈ (atbatButtonStep doc acc p).1, infoProv doc kv := by
  unfold atbatButtonStep
  cases hid : (nodeAtD doc p).attr? "id" with
  | none => simp only [hid]; exact h
  | some k =>
    simp only [hid]
    by_cases hk : k = ""
    · rw [if_pos hk]
      exact h
    · rw [if_neg hk]
      intro kv hkv
      rcases mem_dinsert _ _ _ _ hkv with h1 | h1
      · exact h _ h1
      · subst h1
        exact ⟨p, hp, hid, hk, rfl, rfl, rfl⟩

theorem atbatBodyStep_prov (doc : Node)
    (acc : List (String × AtbatInfo) × List (String × String)) (bp : List Nat)
    (h : ∀ kv ∈ acc.1, infoProv doc kv) :
    ∀ kv ∈ (atbatBodyStep doc acc bp).1, infoProv doc kv := by
  unfold atbatBodyStep
  by_cases hcond : (truthyO ((nodeAtD doc bp).attr? "aria-labelledby") &&
      (dget acc.1 (((nodeAtD doc bp).attr? "aria-labelledby").getD "")).isSome) = true
  · rw [if_pos hcond]
    cases hget : dget acc.1 (((nodeAtD doc bp).attr? "aria-labelledby").getD "") with
    | none => simp only [hget]; exact h
    | some info =>
      simp only [hget]
      by_cases hupd : (!truthyO info.body_id &&
          truthyO ((nodeAtD doc bp).attr? "id")) = true
      · rw [if_pos hupd]
        intro kv hkv
        rcases mem_dmodify _ _ _ _ hkv with h1 | ⟨v0, hv0, hfv⟩
        · exact h _ h1
        · obtain ⟨p, hp, hid, hk, hdesc, haway, hhome⟩ := h _ hv0
          refine ⟨p, hp, hid, hk, ?_, ?_, ?_⟩ <;> rw [hfv] <;> assumption
      · rw [if_neg hupd]
        exact h
  · rw [if_neg hcond]
    exact h

theorem build_atbat_maps_prov (doc : Node) :
    ∀ kv ∈ (build_atbat_maps doc).1, infoProv doc kv := by
  unfold build_atbat_maps
  have base : ∀ kv ∈ (([], []) : List (String × AtbatInfo) × List (String × String)).1,
      infoProv doc kv := by
    intro kv h; simp at h
  have h1 := foldl_inv
    (fun (acc : List (String × AtbatInfo) × List (String × String)) =>
      ∀ kv ∈ acc.1, infoProv doc kv)
    (atbatButtonStep doc) (buttonPaths doc) ([], []) base
    (fun s x hx hP => atbatButtonStep_prov doc s x hx hP)
  exact foldl_inv
    (fun (acc : List (String × AtbatInfo) × List (String × String)) =>
      ∀ kv ∈ acc.1, infoProv doc kv)
    (atbatBodyStep doc) (bodyPaths doc) _ h1
    (fun s x _ hP => atbatBodyStep_prov doc s x hP)

theorem build_atbats_keys (doc : Node) (teams : Option String × Option String)
    (psum : List (String × String)) :
    ∀ (l : List (String × AtbatInfo)) (r : List AtBatRecord),
    build_atbats doc teams psum l = some r →
    r.map (fun ab => ab.atbat_key) = l.map (fun kv => kv.1) := by
  intro l
  induction l with
  | nil =>
    intro r h
    simp only [build_atbats, Option.some.injEq] at h
    simp [← h]
  | cons hd t ih =>
    intro r h
    obtain ⟨k, info⟩ := hd
    simp only [build_atbats] at h
    cases hseq : pitchSeqVal psum k info.body_id with
    | none => rw [hseq] at h; simp at h
    | some s =>
      rw [hseq] at h
      cases hrest : build_atbats doc teams psum t with
      | none => rw [hrest] at h; simp at h
      | some tl =>
        rw [hrest] at h
        have h' : mkAtbatRec doc teams k info s :: tl = r := by simpa using h
        subst h'
        simp [mkAtbatRec, ih tl hrest]

theorem build_atbats_fields (doc : Node) (teams : Option String × Option String)
    (psum : List (String × String)) :
    ∀ (l : List (String × AtbatInfo)) (r : List AtBatRecord),
    build_atbats doc teams psum l = some r →
    ∀ ab ∈ r, ∃ kv ∈ l, ab.atbat_key = kv.1 ∧ ab.description = kv.2.desc ∧
      ab.away_score = kv.2.away_score ∧ ab.home_score = kv.2.home_score := by
  intro l
  induction l with
  | nil =>
    intro r h ab hab
    simp only [build_atbats, Option.some.injEq] at h
    subst h
    simp at hab
  | cons hd t ih =>
    intro r h ab hab
    obtain ⟨k, info⟩ := hd
    simp only [build_atbats] at h
    cases hseq : pitchSeqVal psum k info.body_id with
    | none => rw [hseq] at h; simp at h
    | some s =>
      rw [hseq] at h
      cases hrest : build_atbats doc teams psum t with
      | none => rw [hrest] at h; simp at h
      | some tl =>
        rw [hrest] at h
        have h' : mkAtbatRec doc teams k info s :: tl = r := by simpa using h
        subst h'
        rcases List.mem_cons.mp hab with rfl | hmem
        · exact ⟨(k, info), List.mem_cons.mpr (Or.inl rfl), rfl, rfl, rfl, rfl⟩
        · obtain ⟨kv, hkv, hprops⟩ := ih tl hrest ab hmem
          exact ⟨kv, List.mem_cons.mpr (Or.inr hkv), hprops⟩

theorem pitchBodyStep_inv (doc : Node) (b2a : List (String × String))
    (pm : List (String × List PitchRecord)) (bp : List Nat)
    (hbp : bp ∈ bodyPaths doc) (h : pmInv doc b2a pm) :
    pmInv doc b2a (pitchBodyStep doc b2a pm bp) := by
  unfold pmInv at h ⊢
  unfold pitchBodyStep
  cases hid : (nodeAtD doc bp).attr? "id" with
  | none => simp only [hid]; exact h
  | some bid =>
    simp only [hid]
    by_cases hb : bid = ""
    · rw [if_pos hb]; exact h
    · rw [if_neg hb]
      by_cases hrows : (parse_pitch_body (nodeAtD doc bp)).isEmpty = true
      · rw [if_pos hrows]; exact h
      · rw [if_neg hrows]
        refine dappend_pres
          (fun key => ∃ bp2, bp2 ∈ bodyPaths doc ∧ ∃ bid2,
            (nodeAtD doc bp2).attr? "id" = some bid2 ∧ bid2 ≠ "" ∧
            key = resolveKey b2a bid2)
          (fun (key : String) (r : PitchRecord) => r.atbat_key = key) _ _ _ h ?_ ?_
        · exact ⟨bp, hbp, bid, hid, hb, rfl⟩
        · intro r hr
          obtain ⟨row, _, rfl⟩ := List.mem_map.mp hr
          rfl

theorem parse_all_pitches_inv (doc : Node) (b2a : List (String × String)) :
    pmInv doc b2a (parse_all_pitches doc b2a).1 := by
  have base : pmInv doc b2a [] := by intro kv h; simp at h
  exact foldl_inv (pmInv doc b2a) (pitchBodyStep doc b2a) (bodyPaths doc) [] base
    (fun s x hx hP => pitchBodyStep_inv doc b2a s x hx hP)

theorem pitchRowsFlatten_mem (pm : List (String × List PitchRecord)) :
    ∀ pr ∈ pitchRowsFlatten pm, ∃ kv ∈ pm, ∃ r ∈ kv.2,
      pr = { r with atbat_key := if r.atbat_key ≠ "" then r.atbat_key else kv.1 } := by
  intro pr hpr
  unfold pitchRowsFlatten at hpr
  rcases (mem_foldl_append _ pm [] pr).mp hpr with h | ⟨kv, hkv, hmem⟩
  · simp at h
  · obtain ⟨r, hr, rfl⟩ := List.mem_map.mp hmem
    exact ⟨kv, hkv, r, hr, rfl⟩

theorem parse_play_by_play_destruct (doc : Node)
    (abs : List AtBatRecord) (ps : List PitchRecord) (sm : GameSummary)
    (h : parse_play_by_play doc = some (abs, ps, sm)) :
    build_atbats doc (parse_game_header_teams doc)
        (parse_all_pitches doc (build_atbat_maps doc).2).2 (build_atbat_maps doc).1 =
      some abs ∧
    ps = pitchRowsFlatten (parse_all_pitches doc (build_atbat_maps doc).2).1 ∧
    sm = { away_team := (parse_game_header_teams doc).1,
           home_team := (parse_game_header_teams doc).2,
           total_atbats_found := abs.length,
           total_pitch_events_found := ps.length } := by
  simp only [parse_play_by_play] at h
  cases hb : build_atbats doc (parse_game_header_teams doc)
      (parse_all_pitches doc (build_atbat_maps doc).2).2 (build_atbat_maps doc).1 with
  | none => rw [hb] at h; simp at h
  | some atbats =>
    rw [hb] at h
    simp only [Option.some.injEq, Prod.mk.injEq] at h
    obtain ⟨h1, h2, h3⟩ := h
    subst h1; subst h2; subst h3
    exact ⟨rfl, rfl, rfl⟩

theorem pitch_rows_of_trs_length :
    ∀ trs : List Node, (pitch_rows_of_trs trs).length =
      trs.countP (fun tr => decide (6 ≤ (tdsOf tr).length)) := by
  intro trs
  induction trs with
  | nil => simp [pitch_rows_of_trs]
  | cons tr rest ih =>
    simp only [pitch_rows_of_trs, List.countP_cons]
    by_cases h : (tdsOf tr).length < 6
    · rw [if_pos h]
      have hd : decide (6 ≤ (tdsOf tr).length) = false := by
        simp only [decide_eq_false_iff_not]
        omega
      rw [ih, hd]
      simp
    · rw [if_neg h]
      have hd : decide (6 ≤ (tdsOf tr).length) = true := by
        simp only [decide_eq_true_eq]
        omega
      simp [ih, hd]

/-! ## Claims -/

/-- C1 (corrected).  The engine performs no pitching-change detection: there
is no Pitcher Tracker, no `pitcher` field on any record, and the third output
collection is a GameSummary (team names plus record counts), not a
PitchingChanges collection.  Whenever the engine completes, the summary's
counts are exactly the lengths of the two record streams. -/
theorem c1_summary_not_changes :
    ∀ (doc : Node) (abs : List AtBatRecord) (ps : List PitchRecord) (sm : GameSummary),
    parse_play_by_play doc = some (abs, ps, sm) →
    sm.away_team = (parse_game_header_teams doc).1 ∧
    sm.home_team = (parse_game_header_teams doc).2 ∧
    sm.total_atbats_found = abs.length ∧
    sm.total_pitch_events_found = ps.length ∧
    "new_pitcher" ∉ summaryFields ∧ "old_pitcher" ∉ summaryFields ∧
    "pitcher" ∉ atBatRecordFields := by
  intro doc abs ps sm h
  obtain ⟨_, _, hsm⟩ := parse_play_by_play_destruct doc abs ps sm h
  subst hsm
  exact ⟨rfl, rfl, rfl, rfl, by decide, by decide, by decide⟩

/-- C1 counterexample: a play whose description is exactly
"Pitching Change: Smith replaces Jones." produces one ordinary AtBatRecord,
no record carrying a pitcher or new/old-pitcher field, and the third output
is the GameSummary — no PitchingChangeRecord exists anywhere in the output. -/
theorem c1_counterexample :
    parse_play_by_play c1doc = some ([c1ab], [], c1sm) ∧
    c1ab.description = "Pitching Change: Smith replaces Jones." ∧
    "pitcher" ∉ atBatRecordFields ∧ "new_pitcher" ∉ summaryFields ∧
    "old_pitcher" ∉ summaryFields ∧
    summaryFields = ["away_team", "home_team", "total_atbats_found",
      "total_pitch_events_found"] :=
  ⟨by decide, by decide, by decide, by decide, by decide, by decide⟩

/-- C1 witness: the amended statement evaluated on the concrete document. -/
theorem c1_witness :
    c1sm.away_team = (parse_game_header_teams c1doc).1 ∧
    c1sm.home_team = (parse_game_header_teams c1doc).2 ∧
    c1sm.total_atbats_found = ([c1ab] : List AtBatRecord).length ∧
    c1sm.total_pitch_events_found = ([] : List PitchRecord).length ∧
    "new_pitcher" ∉ summaryFields ∧ "old_pitcher" ∉ summaryFields ∧
    "pitcher" ∉ atBatRecordFields :=
  c1_summary_not_changes c1doc [c1ab] [] c1sm (by decide)

/-- C2 (corrected).  A PitchRecord carries exactly the ten fields of the
source dict literal; its only link to the parent play is `atbat_key` — it
has no denormalized inning/half/team/pitcher fields (nor does AtBatRecord
have a pitcher field) — and every emitted pitch row is tagged with the key
of the play group it was collected under. -/
theorem c2_key_only_linkage :
    ("inning" ∉ pitchRecordFields ∧ "half" ∉ pitchRecordFields ∧
     "team" ∉ pitchRecordFields ∧ "pitcher" ∉ pitchRecordFields ∧
     "atbat_key" ∈ pitchRecordFields ∧ "pitcher" ∉ atBatRecordFields) ∧
    ∀ (doc : Node) (kv : String × List PitchRecord),
      kv ∈ (parse_all_pitches doc (build_atbat_maps doc).2).1 →
      ∀ r ∈ kv.2, r.atbat_key = kv.1 := by
  constructor
  · exact ⟨by decide, by decide, by decide, by decide, by decide, by decide⟩
  · intro doc kv hkv r hr
    exact ((parse_all_pitches_inv doc (build_atbat_maps doc).2) kv hkv).2 r hr

/-- C2 counterexample: the engine emits a PitchRecord for the concrete
document, yet neither the PitchRecord shape nor the AtBatRecord shape has
the inning/half/team/pitcher fields the claim asserts are denormalized. -/
theorem c2_counterexample :
    (parse_play_by_play c2doc).map (fun out => out.2.1) = some [c2row] ∧
    "inning" ∉ pitchRecordFields ∧ "half" ∉ pitchRecordFields ∧
    "team" ∉ pitchRecordFields ∧ "pitcher" ∉ pitchRecordFields ∧
    "pitcher" ∉ atBatRecordFields :=
  ⟨by decide, by decide, by decide, by decide, by decide, by decide⟩

/-- C2 witness: the pitch row of the concrete document is tagged with its
play's key. -/
theorem c2_witness : c2row.atbat_key = "b1" :=
  c2_key_only_linkage.2 c2doc ("b1", [c2row]) (by decide) c2row (by decide)

/-- C3 (code bug).  On a document with exactly one play container whose
button references a detail container (`aria-controls`) for which no pitch
rows are captured, line 401 evaluates `None.replace(...)` and the engine
raises `AttributeError`, producing no records at all instead of one
AtBatRecord per play container. -/
theorem c3_crash_on_reference_without_rows :
    parse_play_by_play c3doc = none ∧ (buttonPaths c3doc).length = 1 :=
  ⟨by decide, by decide⟩

/-- C4 (corrected, count part).  For every pitch-detail container, the row
extractor produces exactly K PitchEvents where K is the number of rows
having at least six cells. -/
theorem c4_container_valid_row_count (body : Node) :
    (parse_pitch_body body).length =
      (trsOf body).countP (fun tr => decide (6 ≤ (tdsOf tr).length)) := by
  unfold parse_pitch_body
  rw [(List.perm_insertionSort pitchLe _).length_eq, pitch_rows_of_trs_length]

/-- C4 counterexample: a pitch-detail container with one valid row but no
`id` attribute is skipped entirely — the engine emits zero PitchRecords. -/
theorem c4_counterexample :
    (trsOf c4body).countP (fun tr => decide (6 ≤ (tdsOf tr).length)) = 1 ∧
    (parse_play_by_play c4doc).map (fun out => out.2.1.length) = some 0 :=
  ⟨by decide, by decide⟩

/-- C5 (corrected).  The score fields of an AtBatRecord are the raw text of
the designated score elements of the play's button (empty string when the
element is absent); no integer parsing is applied to them, and the (total)
extraction never raises. -/
theorem c5_scores_raw_text :
    ∀ (doc : Node) (abs : List AtBatRecord) (ps : List PitchRecord) (sm : GameSummary),
    parse_play_by_play doc = some (abs, ps, sm) → ∀ ab ∈ abs,
    ∃ p, p ∈ buttonPaths doc ∧ (nodeAtD doc p).attr? "id" = some ab.atbat_key ∧
      ab.away_score =
        inner_text (selectOne (fun n => n.hasClass "PlayHeader__score--away") (nodeAtD doc p)) ∧
      ab.home_score =
        inner_text (selectOne (fun n => n.hasClass "PlayHeader__score--home") (nodeAtD doc p)) := by
  intro doc abs ps sm h ab hab
  obtain ⟨hb, _, _⟩ := parse_play_by_play_destruct doc abs ps sm h
  obtain ⟨kv, hkv, hkey, hdesc, haway, hhome⟩ :=
    build_atbats_fields _ _ _ _ _ hb ab hab
  obtain ⟨p, hp, hid, hk, hd2, ha2, hh2⟩ := build_atbat_maps_prov doc kv hkv
  refine ⟨p, hp, ?_, ?_, ?_⟩
  · rw [hkey]; exact hid
  · rw [haway, ha2]; rfl
  · rw [hhome, hh2]; rfl

/-- C5 counterexample: a score element holding "abc" yields the string
"abc" in the record (not an integer, not null), and an absent score element
yields "" (not null); `_safe_int` would have rejected "abc". -/
theorem c5_counterexample :
    parse_play_by_play c5doc = some ([c5ab], [], c5sm) ∧
    c5ab.away_score = "abc" ∧ c5ab.home_score = "" ∧ safe_int "abc" = none :=
  ⟨by decide, rfl, rfl, by decide⟩

/-- C5 witness: the amended statement evaluated on the concrete document. -/
theorem c5_witness :
    ∃ p, p ∈ buttonPaths c5doc ∧ (nodeAtD c5doc p).attr? "id" = some c5ab.atbat_key ∧
      c5ab.away_score =
        inner_text (selectOne (fun n => n.hasClass "PlayHeader__score--away") (nodeAtD c5doc p)) ∧
      c5ab.home_score =
        inner_text (selectOne (fun n => n.hasClass "PlayHeader__score--home") (nodeAtD c5doc p)) :=
  c5_scores_raw_text c5doc [c5ab] [] c5sm (by decide) c5ab (by decide)

/-- C6 (corrected).  The extracted pitch list is sorted ascending by the
sort key that maps a null sequence number to the sentinel 9999; the sentinel
is NOT greater than every representable sequence number, but whenever every
real sequence number of the play is below 9999, nulls do come last. -/
theorem c6_sort_sentinel (body : Node) :
    List.Pairwise (fun a b => pitchKey a ≤ pitchKey b) (parse_pitch_body body) ∧
    ((∀ r ∈ parse_pitch_body body, r.pitch_no = none ∨ pitchKey r < 9999) →
      List.Pairwise (fun a b => a.pitch_no = none → b.pitch_no = none)
        (parse_pitch_body body)) := by
  have hs : List.Sorted pitchLe (parse_pitch_body body) :=
    List.sorted_insertionSort pitchLe _
  constructor
  · exact hs
  · intro H
    refine List.Pairwise.imp_of_mem ?_ hs
    intro a b ha hb hle hnone
    rcases H b hb with h1 | h1
    · exact h1
    · exfalso
      have hka : pitchKey a = 9999 := by simp [pitchKey, hnone]
      unfold pitchLe at hle
      omega

/-- C6 counterexample: a row with sequence number 10000 and a null-sequence
row — after sorting, the null row comes FIRST, because the null placeholder
9999 is smaller than the real sequence number 10000. -/
theorem c6_counterexample :
    (parse_pitch_body c6body).map (fun r => r.pitch_no) = [none, some 10000] := by
  decide

/-- C6 witness: with ordinary sequence numbers below the sentinel, null rows
are ordered last. -/
theorem c6_witness :
    List.Pairwise (fun a b => a.pitch_no = none → b.pitch_no = none)
      (parse_pitch_body c6wbody) :=
  (c6_sort_sentinel c6wbody).2 (by decide)

/-- C7 (confirmed).  A row with fewer than six cells is skipped without
raising (the extractor is a total function) and without affecting the
extraction of the rows before or after it in the same container. -/
theorem c7_short_rows_skipped (a b : List Node) (bad : Node)
    (h : (tdsOf bad).length < 6) :
    pitch_rows_of_trs (a ++ bad :: b) = pitch_rows_of_trs (a ++ b) := by
  induction a with
  | nil =>
    simp only [List.nil_append, pitch_rows_of_trs]
    rw [if_pos h]
  | cons x xs ih =>
    simp only [List.cons_append, pitch_rows_of_trs, List.append_eq, ih]

/-- C7 witness: the skip equation evaluated on concrete rows. -/
theorem c7_witness :
    pitch_rows_of_trs (c7trs1 ++ c7bad :: c7trs2) = pitch_rows_of_trs (c7trs1 ++ c7trs2) :=
  c7_short_rows_skipped c7trs1 c7trs2 c7bad (by decide)

/-- C8 (confirmed).  The context-resolver walks are total Lean functions
(the sibling walk is bounded by the sibling index, the ancestor walk by the
path length), and on a document with no recognizable inning headings they
return the empty heading text, which resolves to the all-null context. -/
theorem c8_context_resolver (doc : Node) (away home : Option String)
    (hc : cleanFor doc) (p : List Nat) :
    nearest_inning_header_text doc p = "" ∧
    parse_inning_half_team (nearest_inning_header_text doc p) away home =
      (none, none, none) := by
  have hmain : nearest_inning_header_text doc p = "" := by
    cases p with
    | nil => rfl
    | cons i q =>
      simp only [nearest_inning_header_text]
      simp only [sibWalk_clean hc _ (childrenAt_sub _), ancWalk_clean hc]
  refine ⟨hmain, ?_⟩
  rw [hmain]
  rfl

/-- C8 witness: the theorem evaluated on a concrete heading-free document at
the play node's path. -/
theorem c8_witness :
    nearest_inning_header_text c8doc [0, 0] = "" ∧
    parse_inning_half_team (nearest_inning_header_text c8doc [0, 0]) none none =
      (none, none, none) :=
  c8_context_resolver c8doc none none (by decide) [0, 0]

/-- C9 (corrected).  Every PitchRecord is keyed by the resolved key of its
detail container; whenever every contributing container's resolved key is
a known at-bat id, the foreign-key property holds: each PitchRecord's
`atbat_key` equals the key of some AtBatRecord. -/
theorem c9_foreign_key :
    ∀ (doc : Node) (abs : List AtBatRecord) (ps : List PitchRecord) (sm : GameSummary),
    parse_play_by_play doc = some (abs, ps, sm) →
    (∀ bp ∈ bodyPaths doc, truthyO ((nodeAtD doc bp).attr? "id") = true →
      resolveKey (build_atbat_maps doc).2 (((nodeAtD doc bp).attr? "id").getD "") ∈
        (build_atbat_maps doc).1.map (fun kv => kv.1)) →
    ∀ pr ∈ ps, ∃ ab ∈ abs, ab.atbat_key = pr.atbat_key := by
  intro doc abs ps sm h hres pr hpr
  obtain ⟨hb, hps, _⟩ := parse_play_by_play_destruct doc abs ps sm h
  subst hps
  obtain ⟨kv, hkv, r, hr, rfl⟩ := pitchRowsFlatten_mem _ pr hpr
  obtain ⟨⟨bp, hbp, bid, hid, hbid, hkey⟩, hrows⟩ :=
    parse_all_pitches_inv doc (build_atbat_maps doc).2 kv hkv
  have hkeymem : kv.1 ∈ (build_atbat_maps doc).1.map (fun kv2 => kv2.1) := by
    rw [hkey]
    have hatt : truthyO ((nodeAtD doc bp).attr? "id") = true := by
      rw [hid]; simp [truthyO, hbid]
    have := hres bp hbp hatt
    rw [hid] at this
    simpa using this
  have hkeys := build_atbats_keys doc _ _ _ abs hb
  rw [← hkeys] at hkeymem
  obtain ⟨ab, hab, habk⟩ := List.mem_map.mp hkeymem
  refine ⟨ab, hab, ?_⟩
  have hrk : r.atbat_key = kv.1 := hrows r hr
  rw [habk]
  show kv.1 =
    ({ r with atbat_key := if r.atbat_key ≠ "" then r.atbat_key else kv.1 } : PitchRecord).atbat_key
  by_cases hne : r.atbat_key ≠ ""
  · simp [hne, hrk]
  · simp [hne]

/-- C9 counterexample: an orphan detail container (id "orphan", resolving to
no at-bat) yields a PitchRecord whose `atbat_key` matches no AtBatRecord —
the at-bat stream is empty. -/
theorem c9_counterexample :
    (parse_play_by_play c9doc).map
        (fun out => (out.1, out.2.1.map (fun p => p.atbat_key))) =
      some ([], ["orphan"]) := by
  decide

/-- C9 witness: the amended statement evaluated on a well-linked document. -/
theorem c9_witness :
    ∃ ab ∈ ([c9ab] : List AtBatRecord), ab.atbat_key = c9pr.atbat_key :=
  c9_foreign_key c9wdoc [c9ab] [c9pr] c9sm (by decide) (by decide) c9pr (by decide)

/-- C10 (confirmed).  The inning number comes only from the fixed ordinal
table `ORDINAL_MAP` ("1st" … "18th"): when the heading's matched ordinal is
outside the table the inning is null, while the half and the team are
resolved exactly as they would otherwise be. -/
theorem c10_ordinal_table (s : String) (away home : Option String) (o : String)
    (h1 : findOrdinal false s = some o) (h2 : mapGet ORDINAL_MAP o = none) :
    parse_inning_half_team s away home =
      (none, findHalf s, resolveTeam s away home (findHalf s)) := by
  simp only [parse_inning_half_team, h1, h2]

/-- C10 witness: "Top 19th – TOR" resolves to a null inning with half "Top"
and team "TOR". -/
theorem c10_witness :
    parse_inning_half_team "Top 19th – TOR" none none =
      (none, some "Top", some "TOR") := by
  rw [c10_ordinal_table "Top 19th – TOR" none none "19th" (by decide) (by decide)]
  decide

end PBP
